import Mathlib

/-!
Verification of the 2D geometry / collision core of the Beetle simulator.

The embedding follows the Python sources:
* `src/vector.py`  : `Vec2`, `RotationMatrix`, `EPSILON`
* `src/shapes.py`  : the shape variants, the ray intersection engine,
  the scene registry (`ShapeContainer`) and the random room generator.

Python floats are modelled as real numbers (exact real arithmetic).
-/

namespace Beetle

/-- EPSILON constant from src/vector.py (`EPSILON = 1e-9`). -/
noncomputable def EPSILON : ℝ := 1 / 1000000000

/-- Vec2 from src/vector.py: an immutable pair of floats. -/
@[ext]
structure Vec2 where
  x : ℝ
  y : ℝ

instance : Inhabited Vec2 := ⟨⟨0, 0⟩⟩

/-- Vec2.__add__ : componentwise addition. -/
def Vec2.add (v w : Vec2) : Vec2 := ⟨v.x + w.x, v.y + w.y⟩

instance : Add Vec2 := ⟨Vec2.add⟩

/-- Vec2.__sub__ : componentwise subtraction. -/
def Vec2.sub (v w : Vec2) : Vec2 := ⟨v.x - w.x, v.y - w.y⟩

instance : Sub Vec2 := ⟨Vec2.sub⟩

/-- Vec2.__mul__ : scalar multiplication. -/
def Vec2.smul (v : Vec2) (k : ℝ) : Vec2 := ⟨v.x * k, v.y * k⟩

/-- Vec2.__truediv__ : scalar division. -/
noncomputable def Vec2.div (v : Vec2) (k : ℝ) : Vec2 := ⟨v.x / k, v.y / k⟩

/-- Vec2.dot : the euclidean inner product. -/
def Vec2.dot (v w : Vec2) : ℝ := v.x * w.x + v.y * w.y

/-- Vec2.length : `np.sqrt(self.dot(self))`. -/
noncomputable def Vec2.length (v : Vec2) : ℝ := Real.sqrt (v.dot v)

/-- Vec2.normalized : returns the zero vector when `length < EPSILON`,
otherwise `self / length`. -/
noncomputable def Vec2.normalized (v : Vec2) : Vec2 :=
  if v.length < EPSILON then ⟨0, 0⟩ else v.div v.length

/-- RotationMatrix from src/vector.py: a pair of row vectors. -/
structure RotationMatrix where
  first : Vec2
  second : Vec2

/-- Vec2._matmul : `Vec2(self.dot(matrix.first), self.dot(matrix.second))`. -/
def Vec2.matmul (v : Vec2) (m : RotationMatrix) : Vec2 :=
  ⟨v.dot m.first, v.dot m.second⟩

/-- Vec2.rotate : builds `RotationMatrix(Vec2(cos a, sin a), Vec2(-sin a, cos a))`
and applies `_matmul` to it. -/
noncomputable def Vec2.rotate (v : Vec2) (a : ℝ) : Vec2 :=
  v.matmul ⟨⟨Real.cos a, Real.sin a⟩, ⟨-Real.sin a, Real.cos a⟩⟩

/-! Shape data model from src/shapes.py.  Each Python class becomes a
structure holding its constructor fields together with the derived fields
computed in `__post_init__`; the closed set of runtime shape types becomes
the inductive `ShapeV` (used for `type(shape)`-keyed dispatch). -/

/-- HemiPlane: a point on the boundary line, the direction along it, and the
derived normal `direction.rotate(pi/2)`. -/
structure HemiPlaneS where
  p0 : Vec2
  direction : Vec2
  normal : Vec2

/-- Segment: HemiPlane fields plus a finite length; `can_collide` defaults to
true; `add_to_shape_container` exists in the source but is never read. -/
structure SegmentS where
  p0 : Vec2
  direction : Vec2
  normal : Vec2
  length : ℝ
  can_collide : Bool
  add_to_shape_container : Bool

/-- Segment viewed through its HemiPlane fields (Python inheritance:
`collides_line` reads `.p0` and `.normal` off a Segment directly). -/
def SegmentS.toHemiPlane (s : SegmentS) : HemiPlaneS := ⟨s.p0, s.direction, s.normal⟩

/-- Polygon: the vertex loop plus derived `edges` and `center`. -/
structure PolygonS where
  vertices : List Vec2
  edges : List SegmentS
  center : Vec2

/-- Rectangle: constructor fields `x y w h` plus the Polygon-derived fields. -/
structure RectangleS where
  x : ℝ
  y : ℝ
  w : ℝ
  h : ℝ
  vertices : List Vec2
  edges : List SegmentS
  center : Vec2

/-- The closed set of runtime shape types. -/
inductive ShapeV where
  | point (x y : ℝ)
  | rectangle (r : RectangleS)
  | polygon (p : PolygonS)
  | hemiplane (h : HemiPlaneS)
  | segment (s : SegmentS)

/-- The can_collide attribute of each runtime type.  `Shape.can_collide` is
False and neither `Polygon` nor `Rectangle` overrides it, so both inherit
False; `Point` redeclares False; `HemiPlane` sets True; `Segment` makes it a
per-instance field defaulting to True. -/
def ShapeV.canCollide : ShapeV → Bool
  | .point _ _ => false
  | .rectangle _ => false
  | .polygon _ => false
  | .hemiplane _ => true
  | .segment s => s.can_collide

/-- HemiPlane value built by `HemiPlane.__post_init__`:
`normal = direction.rotate(np.pi / 2)`. -/
noncomputable def hemiPlaneValue (p0 direction : Vec2) : HemiPlaneS :=
  ⟨p0, direction, direction.rotate (Real.pi / 2)⟩

/-- Segment value built by `Segment.from_two_points`:
`direction = (p2 - p1).normalized()`, `length = (p2 - p1).length()`,
then `__post_init__` derives the normal; `can_collide` keeps its default. -/
noncomputable def segValue (p1 p2 : Vec2) : SegmentS :=
  let d := (p2 - p1).normalized
  ⟨p1, d, d.rotate (Real.pi / 2), (p2 - p1).length, true, true⟩

/-- Polygon.edges_from_vertices: one Segment per consecutive vertex pair,
index `i` paired with `i+1` (wrapping to 0 at the end). -/
noncomputable def edgeValues (vs : List Vec2) : List SegmentS :=
  (List.range vs.length).map fun i =>
    segValue (vs.getD i default)
      (vs.getD (if i < vs.length - 1 then i + 1 else 0) default)

/-- Polygon.center_from_vertices: sum of vertices divided by the count. -/
noncomputable def centerFromVertices (vs : List Vec2) : Vec2 :=
  (vs.foldl (fun c v => c + v) (⟨0, 0⟩ : Vec2)).div vs.length

/-- Polygon value after `__post_init__` (vertices, derived edges, center). -/
noncomputable def polygonValue (vs : List Vec2) : PolygonS :=
  ⟨vs, edgeValues vs, centerFromVertices vs⟩

/-- Rectangle value after `__post_init__`: the four counter-clockwise
vertices derived from `x y w h`, then the Polygon-derived fields. -/
noncomputable def rectValue (x y w h : ℝ) : RectangleS :=
  let vs : List Vec2 := [⟨x, y⟩, ⟨x + w, y⟩, ⟨x + w, y + h⟩, ⟨x, y + h⟩]
  ⟨x, y, w, h, vs, edgeValues vs, centerFromVertices vs⟩

/-! In-place rotation (`Polygon.rotate`, `Rectangle.rotate`,
`HemiPlane.rotate`), modelled as state-to-state functions. -/

/-- One vertex under `Polygon.rotate`: offset from center, rotate the offset,
and add the displacement back onto the original vertex. -/
noncomputable def rotatedVertex (center : Vec2) (angle : ℝ) (vertex : Vec2) : Vec2 :=
  let c_to_v := vertex - center
  let rotated := c_to_v.rotate angle
  let displ := rotated - c_to_v
  vertex + displ

/-- Polygon.rotate: replaces `vertices`; `center` and `edges` are not
recomputed. -/
noncomputable def PolygonS.rotate (p : PolygonS) (angle : ℝ) : PolygonS :=
  { p with vertices := p.vertices.map (rotatedVertex p.center angle) }

/-- Rectangle.rotate: `super().rotate(angle)` followed by resyncing `x`, `y`
to the new vertex 0; `w` and `h` are untouched. -/
noncomputable def RectangleS.rotate (r : RectangleS) (angle : ℝ) : RectangleS :=
  let new_vertices := r.vertices.map (rotatedVertex r.center angle)
  { r with vertices := new_vertices,
           x := new_vertices.headI.x, y := new_vertices.headI.y }

/-- HemiPlane.rotate: rotates `direction` in place and recomputes the normal. -/
noncomputable def HemiPlaneS.rotate (h : HemiPlaneS) (angle : ℝ) : HemiPlaneS :=
  let d := h.direction.rotate angle
  ⟨h.p0, d, d.rotate (Real.pi / 2)⟩

/-! Ray and the intersection engine. -/

/-- Ray: angle, origin and maximal length (`direction` is derived). -/
structure Ray where
  angle : ℝ
  origin : Vec2
  length : ℝ

/-- Ray direction `Vec2(np.cos(angle), np.sin(angle))`. -/
noncomputable def Ray.direction (r : Ray) : Vec2 :=
  ⟨Real.cos r.angle, Real.sin r.angle⟩

/-- Ray.at: `origin + direction * coordinate`. -/
noncomputable def Ray.at (r : Ray) (coordinate : ℝ) : Vec2 :=
  r.origin + r.direction.smul coordinate

/-- Ray.collides_line: parallel guard first, then the parametric solution,
rejected outside `[EPSILON, length]`. -/
noncomputable def Ray.collidesLine (r : Ray) (hemiplane : HemiPlaneS) : Option ℝ :=
  let determinant := r.direction.dot hemiplane.normal
  if |determinant| < EPSILON then none
  else
    let t := ((hemiplane.p0 - r.origin).dot hemiplane.normal) / determinant
    if t < EPSILON ∨ t > r.length then none
    else some t

/-- Ray.collides_segment: line hit first, then the hit point's projection
onto the segment direction must lie within `[-EPSILON, length + EPSILON]`. -/
noncomputable def Ray.collidesSegment (r : Ray) (segment : SegmentS) : Option ℝ :=
  match r.collidesLine segment.toHemiPlane with
  | none => none
  | some t =>
    let hit_point := r.at t
    let proj := (hit_point - segment.p0).dot segment.direction
    if proj < 0 - EPSILON ∨ proj > segment.length + EPSILON then none
    else some t

/-- Ray.collides_polygon: minimum hit over all edges. -/
noncomputable def Ray.collidesPolygon (r : Ray) (polygon : PolygonS) : Option ℝ :=
  polygon.edges.foldl (fun min_t edge =>
    match r.collidesSegment edge, min_t with
    | some t, none => some t
    | some t, some m => if t < m then some t else some m
    | none, acc => acc) none

/-- Ray.collide: None when the shape cannot collide, otherwise dispatch on
the exact runtime type via the `self.collisions` table; types missing from
the table (Rectangle, Point) raise NotImplementedError, modelled as an
error value. -/
noncomputable def Ray.collide (r : Ray) (shape : ShapeV) : Except Unit (Option ℝ) :=
  if shape.canCollide = false then .ok none
  else
    match shape with
    | .hemiplane h => .ok (r.collidesLine h)
    | .polygon p => .ok (r.collidesPolygon p)
    | .segment s => .ok (r.collidesSegment s)
    | _ => .error ()

/-- Boundary condition asserted by the spec for a returned hit point: on a
HemiPlane or Segment the point is on the boundary line within EPSILON, and
for a Segment its projection along the direction from `p0` additionally
lies in `[-EPSILON, length + EPSILON]`; for a Polygon some edge satisfies
the Segment condition.  A hit is never returned for the other variants. -/
def onBoundaryWithin (s : ShapeV) (pt : Vec2) : Prop :=
  match s with
  | .hemiplane h => |h.normal.dot (pt - h.p0)| ≤ EPSILON
  | .segment sg => |sg.normal.dot (pt - sg.p0)| ≤ EPSILON ∧
      -EPSILON ≤ (pt - sg.p0).dot sg.direction ∧
      (pt - sg.p0).dot sg.direction ≤ sg.length + EPSILON
  | .polygon p => ∃ e ∈ p.edges, |e.normal.dot (pt - e.p0)| ≤ EPSILON ∧
      -EPSILON ≤ (pt - e.p0).dot e.direction ∧
      (pt - e.p0).dot e.direction ≤ e.length + EPSILON
  | _ => False

/-! Scene registry (`ShapeContainer`) and the global construction state.
`Shape.shape_id` is a class attribute incremented by `Shape.__init__`;
`ShapeContainer._instance` is the process-wide singleton.  Object identity
of the singleton is modelled by a `regId` drawn from an allocation counter. -/

/-- Construction-time error kinds (ValueError sites in src/shapes.py). -/
inductive CErr where
  | invalidConstruction
  | duplicateShape
deriving DecidableEq

/-- ShapeContainer instance: its python object identity and the
insertion-ordered `shapes` dict (shape id to shape). -/
structure Registry where
  regId : ℕ
  shapes : List (ℕ × ShapeV)

/-- Process-wide mutable state: the `Shape.shape_id` counter, the optional
`ShapeContainer._instance`, and a fresh-identity counter for allocation. -/
structure GState where
  shapeId : ℕ
  inst : Option Registry
  allocCount : ℕ

/-- ShapeContainer.add: rejects when the current `Shape.shape_id` is already
a key, otherwise stores the shape under that key. -/
def registryAdd (reg : Registry) (shapeId : ℕ) (s : ShapeV) : Except CErr Registry :=
  if reg.shapes.any (fun e => e.1 = shapeId) then .error .duplicateShape
  else .ok ⟨reg.regId, reg.shapes ++ [(shapeId, s)]⟩

/-- Shape.__init__: increment the class counter, then register into the
container when an instance exists. -/
def shapeInit (self : ShapeV) (st : GState) : Except CErr GState :=
  let st1 : GState := { st with shapeId := st.shapeId + 1 }
  match st1.inst with
  | none => .ok st1
  | some reg =>
    match registryAdd reg st1.shapeId self with
    | .error e => .error e
    | .ok reg1 => .ok { st1 with inst := some reg1 }

/-- ShapeContainer(): `__new__` returns the existing instance or allocates a
fresh one; `__init__` then always resets `shapes` to the empty dict.  The
returned number is the identity of the returned instance. -/
def shapeContainerCall (st : GState) : GState × ℕ :=
  match st.inst with
  | none =>
    let rid := st.allocCount
    ({ st with allocCount := rid + 1, inst := some ⟨rid, []⟩ }, rid)
  | some reg =>
    ({ st with inst := some ⟨reg.regId, []⟩ }, reg.regId)

/-- Point(x=..., y=...): `__post_init__` calls `Shape.__init__`. -/
def mkPoint (x y : ℝ) (st : GState) : Except CErr (ShapeV × GState) := do
  let st1 ← shapeInit (.point x y) st
  pure (.point x y, st1)

/-- HemiPlane(p0=..., direction=...): `__post_init__` calls `Shape.__init__`
and derives the normal; the registry holds a reference to the final object. -/
noncomputable def mkHemiPlane (p0 direction : Vec2) (st : GState) :
    Except CErr (ShapeV × GState) := do
  let h := hemiPlaneValue p0 direction
  let st1 ← shapeInit (.hemiplane h) st
  pure (.hemiplane h, st1)

/-- HemiPlane.from_two_points. -/
noncomputable def hemiPlaneFromTwoPoints (pt_1 pt_2 : Vec2) (st : GState) :
    Except CErr (ShapeV × GState) :=
  mkHemiPlane pt_1 ((pt_2 - pt_1).normalized) st

/-- HemiPlane.from_characteristic_equation for `ax + by + c = 0`: the `b`
branch, then the `a` branch, otherwise ValueError. -/
noncomputable def hemiPlaneFromCharacteristicEquation (a b c : ℝ) (st : GState) :
    Except CErr (ShapeV × GState) :=
  if b ≠ 0 then
    mkHemiPlane ⟨0, -c / b⟩ (Vec2.normalized ⟨1, -a / b⟩) st
  else if a ≠ 0 then
    mkHemiPlane ⟨-c / a, 0⟩ (Vec2.normalized ⟨0, 1⟩) st
  else .error .invalidConstruction

/-- Segment(p0=..., direction=..., length=..., can_collide=...): inherits
`HemiPlane.__post_init__`, so it too registers via `Shape.__init__`. -/
noncomputable def mkSegment (p0 direction : Vec2) (length : ℝ) (can_collide : Bool)
    (st : GState) : Except CErr (ShapeV × GState) := do
  let s : SegmentS := ⟨p0, direction, direction.rotate (Real.pi / 2),
                       length, can_collide, true⟩
  let st1 ← shapeInit (.segment s) st
  pure (.segment s, st1)

/-- Registration side effects of `Polygon.edges_from_vertices`: each edge is
built with `Segment.from_two_points`, which registers the segment. -/
noncomputable def registerEdges (vs : List Vec2) (st : GState) : Except CErr GState :=
  (edgeValues vs).foldlM (fun acc e => shapeInit (.segment e) acc) st

/-- Polygon(vertices=...): the generated dataclass `__init__` runs only
`__post_init__`, which never calls `Shape.__init__` — the polygon itself is
neither counted nor registered; it raises when the vertex list is empty and
otherwise derives (and thereby registers) its edge segments. -/
noncomputable def mkPolygon (vertices : List Vec2) (st : GState) :
    Except CErr (ShapeV × GState) :=
  if vertices.length = 0 then .error .invalidConstruction
  else do
    let st1 ← registerEdges vertices st
    pure (.polygon (polygonValue vertices), st1)

/-- Rectangle(x=..., y=..., w=..., h=...): `__post_init__` calls
`Shape.__init__` first (registering the rectangle), derives the four
vertices, then runs `Polygon.__post_init__` (registering the edges). -/
noncomputable def mkRectangle (x y w h : ℝ) (st : GState) :
    Except CErr (ShapeV × GState) := do
  let r := rectValue x y w h
  let st1 ← shapeInit (.rectangle r) st
  if r.vertices.length = 0 then .error .invalidConstruction
  else do
    let st2 ← registerEdges r.vertices st1
    pure (.rectangle r, st2)

/-- Discriminator for Polygon entries in the registry. -/
def isPolygonEntry : ShapeV → Bool
  | .polygon _ => true
  | _ => false

/-- Number of Polygon values currently registered. -/
def countPolygonEntries (st : GState) : ℕ :=
  match st.inst with
  | none => 0
  | some reg => (reg.shapes.filter fun e => isPolygonEntry e.2).length

/-! Random room generation (`ordered_random_vertices`, `RandomPolygon`).
The uniform sampler is abstracted into an oracle of point batches, and the
rejection loop is bounded by fuel (`.ok none` models running out of fuel:
the Python loop would still be running). -/

/-- clockwise_sort: the epsilon-guarded arctan sort key. -/
noncomputable def clockwise_sort (vec : Vec2) : ℝ :=
  (Real.arctan (vec.y / (vec.x + EPSILON)) + Real.pi / 2) +
    (if vec.x < 0 then Real.pi else 0)

/-- Quadrant acceptance of one sampled batch: the while loop exits once all
four quadrants are marked; a point marks a quadrant only by strict signs. -/
noncomputable def acceptBatch (pts : List Vec2) : Bool :=
  (pts.any fun pt => decide (0 < pt.x) && decide (0 < pt.y)) &&
  (pts.any fun pt => decide (pt.x < 0) && decide (0 < pt.y)) &&
  (pts.any fun pt => decide (pt.x < 0) && decide (pt.y < 0)) &&
  (pts.any fun pt => decide (0 < pt.x) && decide (pt.y < 0))

/-- Rejection loop: returns the first accepted batch within the fuel bound. -/
noncomputable def findAccepted (batches : ℕ → List Vec2) : ℕ → ℕ → Option (List Vec2)
  | 0, _ => none
  | fuel + 1, k =>
    if acceptBatch (batches k) then some (batches k)
    else findAccepted batches fuel (k + 1)

/-- Python sorted with key `clockwise_sort`: a stable merge sort on the key. -/
noncomputable def sortByKey (pts : List Vec2) : List Vec2 :=
  pts.mergeSort fun p q => decide (clockwise_sort p ≤ clockwise_sort q)

/-- ordered_random_vertices: raises below 4 points; repeatedly samples a
batch of `n_points` points until all quadrants are covered; sorts by the
angle key; adds the center offset last.  `max_size` only parametrizes the
sampling distribution, which lives in the batch oracle here. -/
noncomputable def ordered_random_vertices (batches : ℕ → List Vec2) (fuel : ℕ)
    (n_points : ℕ) (max_size : ℝ) (center : Vec2) :
    Except CErr (Option (List Vec2)) :=
  if n_points < 4 then .error .invalidConstruction
  else
    match findAccepted batches fuel 0 with
    | none => .ok none
    | some pts => .ok (some ((sortByKey pts).map (fun pt => pt + center)))

/-- RandomPolygon(n_edges=..., max_size=..., center=...): generates the
vertices, then runs `Polygon.__post_init__` (like `Polygon`, it never calls
`Shape.__init__` for itself). -/
noncomputable def mkRandomPolygon (batches : ℕ → List Vec2) (fuel : ℕ)
    (n_edges : ℕ) (max_size : ℝ) (center : Vec2) (st : GState) :
    Except CErr (Option (ShapeV × GState)) :=
  match ordered_random_vertices batches fuel n_edges max_size center with
  | .error e => .error e
  | .ok none => .ok none
  | .ok (some vs) =>
    match mkPolygon vs st with
    | .error e => .error e
    | .ok r => .ok (some r)

@[simp]
theorem Vec2.add_x (v w : Vec2) : (v + w).x = v.x + w.x := rfl

@[simp]
theorem Vec2.add_y (v w : Vec2) : (v + w).y = v.y + w.y := rfl

@[simp]
theorem Vec2.sub_x (v w : Vec2) : (v - w).x = v.x - w.x := rfl

@[simp]
theorem Vec2.sub_y (v w : Vec2) : (v - w).y = v.y - w.y := rfl

@[simp]
theorem Vec2.smul_x (v : Vec2) (k : ℝ) : (v.smul k).x = v.x * k := rfl

@[simp]
theorem Vec2.smul_y (v : Vec2) (k : ℝ) : (v.smul k).y = v.y * k := rfl

theorem EPSILON_pos : 0 < EPSILON := by norm_num [EPSILON]

@[simp]
theorem Vec2.rotate_x (v : Vec2) (a : ℝ) :
    (v.rotate a).x = v.x * Real.cos a + v.y * Real.sin a := rfl

@[simp]
theorem Vec2.rotate_y (v : Vec2) (a : ℝ) :
    (v.rotate a).y = v.x * -Real.sin a + v.y * Real.cos a := rfl

/-- C1 counterexample: at `v = (1, 0)`, `a = π/2`, the claim predicts the
counter-clockwise image `(cos a · 1 − sin a · 0, sin a · 1 + cos a · 0) = (0, 1)`,
but `Vec2.rotate` returns `(0, -1)`. -/
theorem c1_rotate_counterexample :
    Vec2.rotate ⟨1, 0⟩ (Real.pi / 2) ≠
      ⟨1 * Real.cos (Real.pi / 2) - 0 * Real.sin (Real.pi / 2),
       1 * Real.sin (Real.pi / 2) + 0 * Real.cos (Real.pi / 2)⟩ := by
  intro h
  have hy := congrArg Vec2.y h
  simp [Vec2.rotate, Vec2.matmul, Vec2.dot, Real.cos_pi_div_two,
    Real.sin_pi_div_two] at hy
  norm_num at hy

/-- C1 amended: `Vec2.rotate a` multiplies `v` by the transpose matrix
`[[cos a, sin a], [-sin a, cos a]]`, i.e. it is the clockwise rotation by `a`
(equivalently the counter-clockwise rotation by `-a`):
the result is `(v.x·cos a + v.y·sin a, -v.x·sin a + v.y·cos a)`. -/
theorem c1_rotate_is_clockwise (v : Vec2) (a : ℝ) :
    v.rotate a = ⟨v.x * Real.cos a + v.y * Real.sin a,
                  -(v.x * Real.sin a) + v.y * Real.cos a⟩ := by
  simp [Vec2.rotate, Vec2.matmul, Vec2.dot]

/-- C2 counterexample: the claim states a Rectangle's `can_collide` is true,
but neither `Rectangle` nor `Polygon` overrides the attribute, so both
inherit `False` from the `Shape` base class. -/
theorem c2_rectangle_can_collide_counterexample :
    ¬ (ShapeV.canCollide (ShapeV.rectangle (rectValue 0 0 10 5)) = true) := by
  simp [ShapeV.canCollide]

/-- C2 amended: `can_collide` is false for Point, Rectangle and Polygon
(the latter two inherit `Shape.can_collide = False`), true for HemiPlane,
the instance field (defaulting to true, as set by `from_two_points`) for
Segment; and `Ray.collide` returns no value on any non-collidable shape. -/
theorem c2_can_collide_amended :
    (∀ x y, (ShapeV.point x y).canCollide = false) ∧
    (∀ r, (ShapeV.rectangle r).canCollide = false) ∧
    (∀ p, (ShapeV.polygon p).canCollide = false) ∧
    (∀ h, (ShapeV.hemiplane h).canCollide = true) ∧
    (∀ s, (ShapeV.segment s).canCollide = s.can_collide) ∧
    (∀ p1 p2, (segValue p1 p2).can_collide = true) ∧
    (∀ (r : Ray) (s : ShapeV), s.canCollide = false → r.collide s = .ok none) := by
  refine ⟨fun _ _ => rfl, fun _ => rfl, fun _ => rfl, fun _ => rfl, fun _ => rfl,
    fun _ _ => rfl, ?_⟩
  intro r s hs
  simp [Ray.collide, hs]

/-- C2 witness: a Point is non-collidable and `collide` returns no value. -/
theorem c2_witness :
    (Ray.mk 0 ⟨0, 0⟩ 10).collide (ShapeV.point 1 2) = .ok none :=
  c2_can_collide_amended.2.2.2.2.2.2 (Ray.mk 0 ⟨0, 0⟩ 10) (ShapeV.point 1 2) rfl

/-- C8: a ray whose direction is EPSILON-perpendicular to the boundary
normal (i.e. parallel to the boundary line) yields no hit, for any origin;
the parallel guard precedes the division in `collides_line`. -/
theorem c8_parallel_ray_no_hit (r : Ray) (h : HemiPlaneS)
    (hpar : |r.direction.dot h.normal| < EPSILON) :
    r.collidesLine h = none := by
  unfold Ray.collidesLine
  simp [hpar]

/-- C8 witness: a horizontal ray above the horizontal boundary through the
origin is parallel and misses. -/
theorem c8_witness :
    (Ray.mk 0 ⟨0, 1⟩ 10).collidesLine (hemiPlaneValue ⟨0, 0⟩ ⟨1, 0⟩) = none :=
  c8_parallel_ray_no_hit (Ray.mk 0 ⟨0, 1⟩ 10) (hemiPlaneValue ⟨0, 0⟩ ⟨1, 0⟩) (by
    simp [Ray.direction, hemiPlaneValue, Vec2.dot, Vec2.rotate, Vec2.matmul,
      Real.cos_pi_div_two, Real.sin_pi_div_two]
    norm_num [EPSILON])

/-- C9: after `Rectangle.rotate`, the stored `x`, `y` equal the coordinates
of the new vertex 0, while `w`, `h` (and the stale `center` and `edges`) are
unchanged. -/
theorem c9_rectangle_rotate_fields (r : RectangleS) (a : ℝ)
    (hv : r.vertices ≠ []) :
    (r.rotate a).x = ((r.rotate a).vertices.getD 0 default).x ∧
    (r.rotate a).y = ((r.rotate a).vertices.getD 0 default).y ∧
    (r.rotate a).w = r.w ∧ (r.rotate a).h = r.h ∧
    (r.rotate a).center = r.center ∧ (r.rotate a).edges = r.edges := by
  obtain ⟨v, tl, hvt⟩ := List.exists_cons_of_ne_nil hv
  simp [RectangleS.rotate, hvt]

/-- C9 witness: instantiated on the axis-aligned rectangle `(0,0,10,5)`. -/
theorem c9_witness :
    ((rectValue 0 0 10 5).rotate 1).w = (rectValue 0 0 10 5).w ∧
    ((rectValue 0 0 10 5).rotate 1).h = (rectValue 0 0 10 5).h :=
  ⟨(c9_rectangle_rotate_fields (rectValue 0 0 10 5) 1 (by simp [rectValue])).2.2.1,
   (c9_rectangle_rotate_fields (rectValue 0 0 10 5) 1 (by simp [rectValue])).2.2.2.1⟩

/-- C10: calling `ShapeContainer()` with a live instance returns that same
instance (same identity) but resets its shape mapping to empty, dropping
every previously registered shape. -/
theorem c10_container_reset (st : GState) (reg : Registry)
    (hreg : st.inst = some reg) :
    (shapeContainerCall st).2 = reg.regId ∧
    (shapeContainerCall st).1.inst = some ⟨reg.regId, []⟩ := by
  simp [shapeContainerCall, hreg]

/-- C10 witness: a registry with one registered shape is emptied in place. -/
theorem c10_witness :
    (shapeContainerCall ⟨5, some ⟨7, [(1, ShapeV.point 1 2)]⟩, 8⟩).2 = 7 ∧
    (shapeContainerCall ⟨5, some ⟨7, [(1, ShapeV.point 1 2)]⟩, 8⟩).1.inst
      = some ⟨7, []⟩ :=
  c10_container_reset ⟨5, some ⟨7, [(1, ShapeV.point 1 2)]⟩, 8⟩ ⟨7, [(1, ShapeV.point 1 2)]⟩ rfl

/-- Soundness of the line intersection: a returned `t` is within
`[EPSILON, length]` and the hit point solves the boundary line equation
exactly. -/
theorem collidesLine_sound (r : Ray) (h : HemiPlaneS) (t : ℝ)
    (ht : r.collidesLine h = some t) :
    EPSILON ≤ t ∧ t ≤ r.length ∧ h.normal.dot (r.at t - h.p0) = 0 := by
  by_cases h1 : |r.direction.dot h.normal| < EPSILON
  · simp [Ray.collidesLine, h1] at ht
  · by_cases h2 : ((h.p0 - r.origin).dot h.normal) / (r.direction.dot h.normal) < EPSILON ∨
        ((h.p0 - r.origin).dot h.normal) / (r.direction.dot h.normal) > r.length
    · simp [Ray.collidesLine, h1, h2] at ht
    · have hts : t = ((h.p0 - r.origin).dot h.normal) / (r.direction.dot h.normal) := by
        simp [Ray.collidesLine, h1, h2] at ht
        exact ht.symm
      push_neg at h2
      have hdet0 : r.direction.dot h.normal ≠ 0 := by
        intro h0
        exact h1 (by simp [h0, EPSILON_pos])
      refine ⟨by rw [hts]; exact h2.1, by rw [hts]; exact h2.2, ?_⟩
      rw [hts]
      simp only [Ray.at, Vec2.dot, Vec2.add_x, Vec2.add_y, Vec2.sub_x, Vec2.sub_y,
        Vec2.smul_x, Vec2.smul_y] at hdet0 ⊢
      field_simp
      ring

/-- Soundness of the segment intersection: line soundness plus the
projection window `[-EPSILON, length + EPSILON]`. -/
theorem collidesSegment_sound (r : Ray) (s : SegmentS) (t : ℝ)
    (ht : r.collidesSegment s = some t) :
    EPSILON ≤ t ∧ t ≤ r.length ∧ s.normal.dot (r.at t - s.p0) = 0 ∧
    -EPSILON ≤ (r.at t - s.p0).dot s.direction ∧
    (r.at t - s.p0).dot s.direction ≤ s.length + EPSILON := by
  unfold Ray.collidesSegment at ht
  cases hl : r.collidesLine s.toHemiPlane with
  | none => rw [hl] at ht; simp at ht
  | some t0 =>
    rw [hl] at ht
    simp at ht
    obtain ⟨⟨hp1, hp2⟩, heq⟩ := ht
    subst heq
    obtain ⟨hb1, hb2, hb3⟩ := collidesLine_sound r s.toHemiPlane t0 hl
    exact ⟨hb1, hb2, hb3, hp1, hp2⟩

/-- C3: whenever `Ray.collide` returns a hit distance `t`, it satisfies
`EPSILON ≤ t ≤ length` and the hit point lies on the target's boundary
within EPSILON (with the projection window for segments). -/
theorem c3_collide_hit_sound (r : Ray) (s : ShapeV) (t : ℝ)
    (ht : r.collide s = .ok (some t)) :
    EPSILON ≤ t ∧ t ≤ r.length ∧ onBoundaryWithin s (r.at t) := by
  cases s with
  | point x y => simp [Ray.collide, ShapeV.canCollide] at ht
  | rectangle r0 => simp [Ray.collide, ShapeV.canCollide] at ht
  | polygon p => simp [Ray.collide, ShapeV.canCollide] at ht
  | hemiplane h =>
    have hl : r.collidesLine h = some t := by
      simpa [Ray.collide, ShapeV.canCollide] using ht
    obtain ⟨h1, h2, h3⟩ := collidesLine_sound r h t hl
    refine ⟨h1, h2, ?_⟩
    show |h.normal.dot (r.at t - h.p0)| ≤ EPSILON
    rw [h3]
    simpa using le_of_lt EPSILON_pos
  | segment sg =>
    by_cases hc : sg.can_collide = true
    · have hl : r.collidesSegment sg = some t := by
        simpa [Ray.collide, ShapeV.canCollide, hc] using ht
      obtain ⟨h1, h2, h3, h4, h5⟩ := collidesSegment_sound r sg t hl
      refine ⟨h1, h2, ?_, h4, h5⟩
      show |sg.normal.dot (r.at t - sg.p0)| ≤ EPSILON
      rw [h3]
      simpa using le_of_lt EPSILON_pos
    · simp only [Bool.not_eq_true] at hc
      simp [Ray.collide, ShapeV.canCollide, hc] at ht

/-- C3 witness: the ray at angle 0 from `(-2, 0)` hits the vertical
boundary line through `(1, 0)` at distance 3. -/
theorem c3_witness :
    EPSILON ≤ (3 : ℝ) ∧ (3 : ℝ) ≤ (Ray.mk 0 ⟨-2, 0⟩ 10).length ∧
    onBoundaryWithin (.hemiplane (hemiPlaneValue ⟨1, 0⟩ ⟨0, 1⟩))
      ((Ray.mk 0 ⟨-2, 0⟩ 10).at 3) :=
  c3_collide_hit_sound (Ray.mk 0 ⟨-2, 0⟩ 10)
    (.hemiplane (hemiPlaneValue ⟨1, 0⟩ ⟨0, 1⟩)) 3 (by
      simp [Ray.collide, ShapeV.canCollide, Ray.collidesLine, Ray.direction,
        hemiPlaneValue, Vec2.rotate, Vec2.matmul, Vec2.dot,
        Real.cos_pi_div_two, Real.sin_pi_div_two]
      norm_num [EPSILON])

/-- Rotating by `a` and then by `-a` is the identity on vectors (the code's
rotation is by the transpose matrix, but the composition still cancels). -/
theorem Vec2.rotate_rotate_neg (v : Vec2) (a : ℝ) :
    (v.rotate a).rotate (-a) = v := by
  ext
  · simp [Real.cos_neg, Real.sin_neg]
    linear_combination v.x * Real.sin_sq_add_cos_sq a
  · simp [Real.cos_neg, Real.sin_neg]
    linear_combination v.y * Real.sin_sq_add_cos_sq a

/-- Per-vertex cancellation for `Polygon.rotate` at any fixed center. -/
theorem rotatedVertex_rotatedVertex_neg (c : Vec2) (a : ℝ) (v : Vec2) :
    rotatedVertex c (-a) (rotatedVertex c a v) = v := by
  ext
  · simp [rotatedVertex, Real.cos_neg, Real.sin_neg]
    linear_combination (v.x - c.x) * Real.sin_sq_add_cos_sq a
  · simp [rotatedVertex, Real.cos_neg, Real.sin_neg]
    linear_combination (v.y - c.y) * Real.sin_sq_add_cos_sq a

/-- C7: `rotate(a)` then `rotate(-a)` restores every Polygon vertex, every
Rectangle vertex, and a HemiPlane's direction, exactly (real arithmetic).
The second rotation reuses the unrecomputed stored center, which is why the
cancellation is exact. -/
theorem c7_rotate_unrotate :
    (∀ (p : PolygonS) (a : ℝ), ((p.rotate a).rotate (-a)).vertices = p.vertices) ∧
    (∀ (r : RectangleS) (a : ℝ), ((r.rotate a).rotate (-a)).vertices = r.vertices) ∧
    (∀ (h : HemiPlaneS) (a : ℝ), ((h.rotate a).rotate (-a)).direction = h.direction) := by
  refine ⟨fun p a => ?_, fun r a => ?_, fun h a => ?_⟩
  · show (p.vertices.map (rotatedVertex p.center a)).map (rotatedVertex p.center (-a))
        = p.vertices
    rw [List.map_map]
    have hfun : (rotatedVertex p.center (-a) ∘ rotatedVertex p.center a) = id :=
      funext fun v => rotatedVertex_rotatedVertex_neg p.center a v
    rw [hfun, List.map_id]
  · show (r.vertices.map (rotatedVertex r.center a)).map (rotatedVertex r.center (-a))
        = r.vertices
    rw [List.map_map]
    have hfun : (rotatedVertex r.center (-a) ∘ rotatedVertex r.center a) = id :=
      funext fun v => rotatedVertex_rotatedVertex_neg r.center a v
    rw [hfun, List.map_id]
  · exact Vec2.rotate_rotate_neg h.direction a

@[simp]
theorem exceptPure_eq {α : Type} (a : α) : (pure a : Except CErr α) = .ok a := rfl

@[simp]
theorem exceptBind_ok {α β : Type} (a : α) (f : α → Except CErr β) :
    (Except.ok a >>= f) = f a := rfl

@[simp]
theorem exceptBind_error {α β : Type} (e : CErr) (f : α → Except CErr β) :
    ((Except.error e : Except CErr α) >>= f) = .error e := rfl

/-- Fresh-key lemma: when all registered keys are at most the current
counter, the incremented counter is not yet a key. -/
theorem any_key_eq_false {l : List (ℕ × ShapeV)} {n : ℕ}
    (hb : ∀ e ∈ l, e.1 ≤ n) : (l.any fun e => e.1 = n + 1) = false := by
  rw [List.any_eq_false]
  intro e he
  simp only [decide_eq_true_eq]
  have := hb e he
  omega

/-- Effect of `Shape.__init__` with a live, duplicate-free registry: the
counter is bumped first and the shape is stored under the new id. -/
theorem shapeInit_some_eq (v : ShapeV) (n rid ac : ℕ) (l : List (ℕ × ShapeV))
    (hb : ∀ e ∈ l, e.1 ≤ n) :
    shapeInit v ⟨n, some ⟨rid, l⟩, ac⟩
      = .ok ⟨n + 1, some ⟨rid, l ++ [(n + 1, v)]⟩, ac⟩ := by
  simp [shapeInit, registryAdd, any_key_eq_false hb]

/-- The only error `Shape.__init__` can raise is DuplicateShape. -/
theorem shapeInit_error_dup (v : ShapeV) (st : GState) (e : CErr)
    (he : shapeInit v st = .error e) : e = .duplicateShape := by
  rcases st with ⟨n, inst0, ac⟩
  cases inst0 with
  | none => simp [shapeInit] at he
  | some reg =>
    by_cases hany : (reg.shapes.any fun en => en.1 = n + 1) = true
    · simp [shapeInit, registryAdd, hany] at he
      exact he.symm
    · simp [shapeInit, registryAdd, hany] at he

/-- Effect of registering a list of segments one after the other (the loop
inside `edges_from_vertices`): all succeed, each appended under the next
id, and every new entry is a Segment. -/
theorem foldShapeInit_some (es : List SegmentS) :
    ∀ (n rid ac : ℕ) (l : List (ℕ × ShapeV)), (∀ e ∈ l, e.1 ≤ n) →
    ∃ lnew, (es.foldlM (fun acc sg => shapeInit (.segment sg) acc)
        (⟨n, some ⟨rid, l⟩, ac⟩ : GState))
          = .ok ⟨n + es.length, some ⟨rid, l ++ lnew⟩, ac⟩ ∧
      (∀ e ∈ l ++ lnew, e.1 ≤ n + es.length) ∧
      (∀ e ∈ lnew, ∃ sg, e.2 = ShapeV.segment sg) ∧
      lnew.length = es.length := by
  induction es with
  | nil =>
    intro n rid ac l hb
    exact ⟨[], by simp, by simpa using hb, by simp, by simp⟩
  | cons sg tl ih =>
    intro n rid ac l hb
    have hb1 : ∀ e ∈ l ++ [(n + 1, ShapeV.segment sg)], e.1 ≤ n + 1 := by
      intro e he
      rcases List.mem_append.1 he with h | h
      · exact le_trans (hb e h) (Nat.le_succ n)
      · rw [List.mem_singleton] at h
        subst h
        simp
    obtain ⟨lnew, h1, h2, h3, h4⟩ := ih (n + 1) rid ac _ hb1
    refine ⟨(n + 1, ShapeV.segment sg) :: lnew, ?_, ?_, ?_, ?_⟩
    · rw [List.foldlM_cons, shapeInit_some_eq _ _ _ _ _ hb, exceptBind_ok, h1]
      simp only [List.length_cons, List.append_assoc, List.singleton_append]
      rw [show n + 1 + tl.length = n + (tl.length + 1) from by omega]
    · intro e he
      have : e ∈ (l ++ [(n + 1, ShapeV.segment sg)]) ++ lnew := by
        simpa [List.append_assoc] using he
      have := h2 e this
      simp only [List.length_cons]
      omega
    · intro e he
      rcases List.mem_cons.1 he with h | h
      · exact ⟨sg, by rw [h]⟩
      · exact h3 e h
    · simp [h4]

/-- The only error the segment-registration loop can raise is
DuplicateShape. -/
theorem foldShapeInit_error_dup (es : List SegmentS) :
    ∀ (st : GState) (e : CErr),
      es.foldlM (fun acc sg => shapeInit (.segment sg) acc) st = .error e →
      e = .duplicateShape := by
  induction es with
  | nil => intro st e he; simp at he
  | cons sg tl ih =>
    intro st e he
    rw [List.foldlM_cons] at he
    cases hs : shapeInit (.segment sg) st with
    | error e0 =>
      rw [hs, exceptBind_error] at he
      have he0 : e0 = e := by simpa using he
      rw [← he0]
      exact shapeInit_error_dup _ _ _ hs
    | ok st1 =>
      rw [hs, exceptBind_ok] at he
      exact ih st1 e he

/-- C4 counterexample: constructing a 4-vertex Polygon in a fresh registry
registers no polygon at all (only its four edge segments), and the global
counter advances by 4 (for the edges), never for the polygon itself. -/
theorem c4_polygon_not_registered_counterexample :
    (mkPolygon [⟨0, 0⟩, ⟨3, 0⟩, ⟨3, 4⟩, ⟨0, 4⟩] ⟨0, some ⟨0, []⟩, 1⟩).map
      (fun res => (countPolygonEntries res.2, res.2.shapeId)) = .ok (0, 4) := rfl

/-- C4 amended: Point, HemiPlane, Segment and Rectangle constructors do
register the newly constructed shape right after incrementing the global
counter (when a registry instance exists and holds no stale future key);
Polygon constructors never register the polygon itself nor count it — only
its edge Segments are counted and registered. -/
theorem c4_amended :
    (∀ (x y : ℝ) (n rid ac : ℕ) (l : List (ℕ × ShapeV)), (∀ e ∈ l, e.1 ≤ n) →
      mkPoint x y ⟨n, some ⟨rid, l⟩, ac⟩
        = .ok (.point x y, ⟨n + 1, some ⟨rid, l ++ [(n + 1, .point x y)]⟩, ac⟩)) ∧
    (∀ (p0 d : Vec2) (n rid ac : ℕ) (l : List (ℕ × ShapeV)), (∀ e ∈ l, e.1 ≤ n) →
      mkHemiPlane p0 d ⟨n, some ⟨rid, l⟩, ac⟩
        = .ok (.hemiplane (hemiPlaneValue p0 d),
            ⟨n + 1, some ⟨rid, l ++ [(n + 1, .hemiplane (hemiPlaneValue p0 d))]⟩, ac⟩)) ∧
    (∀ (p0 d : Vec2) (len : ℝ) (cc : Bool) (n rid ac : ℕ) (l : List (ℕ × ShapeV)),
      (∀ e ∈ l, e.1 ≤ n) →
      mkSegment p0 d len cc ⟨n, some ⟨rid, l⟩, ac⟩
        = .ok (.segment ⟨p0, d, d.rotate (Real.pi / 2), len, cc, true⟩,
            ⟨n + 1, some ⟨rid,
              l ++ [(n + 1, .segment ⟨p0, d, d.rotate (Real.pi / 2), len, cc, true⟩)]⟩, ac⟩)) ∧
    (∀ (x y w h : ℝ) (n rid ac : ℕ) (l : List (ℕ × ShapeV)), (∀ e ∈ l, e.1 ≤ n) →
      ∃ l1, mkRectangle x y w h ⟨n, some ⟨rid, l⟩, ac⟩
          = .ok (.rectangle (rectValue x y w h), ⟨n + 5, some ⟨rid, l1⟩, ac⟩) ∧
        (n + 1, ShapeV.rectangle (rectValue x y w h)) ∈ l1) ∧
    (∀ (vs : List Vec2) (n rid ac : ℕ) (l : List (ℕ × ShapeV)), vs ≠ [] →
      (∀ e ∈ l, e.1 ≤ n) →
      ∃ lnew, mkPolygon vs ⟨n, some ⟨rid, l⟩, ac⟩
          = .ok (.polygon (polygonValue vs), ⟨n + vs.length, some ⟨rid, l ++ lnew⟩, ac⟩) ∧
        ∀ e ∈ lnew, ∃ sg, e.2 = ShapeV.segment sg) := by
  refine ⟨?_, ?_, ?_, ?_, ?_⟩
  · intro x y n rid ac l hb
    simp [mkPoint, shapeInit_some_eq _ _ _ _ _ hb]
  · intro p0 d n rid ac l hb
    simp [mkHemiPlane, shapeInit_some_eq _ _ _ _ _ hb]
  · intro p0 d len cc n rid ac l hb
    simp [mkSegment, shapeInit_some_eq _ _ _ _ _ hb]
  · intro x y w h n rid ac l hb
    have hb1 : ∀ e ∈ l ++ [(n + 1, ShapeV.rectangle (rectValue x y w h))], e.1 ≤ n + 1 := by
      intro e he
      rcases List.mem_append.1 he with h' | h'
      · exact le_trans (hb e h') (Nat.le_succ n)
      · rw [List.mem_singleton] at h'
        subst h'
        simp
    obtain ⟨lnew, h1, h2, h3, h4⟩ :=
      foldShapeInit_some (edgeValues (rectValue x y w h).vertices) (n + 1) rid ac _ hb1
    refine ⟨(l ++ [(n + 1, ShapeV.rectangle (rectValue x y w h))]) ++ lnew, ?_, ?_⟩
    · have hlen4 : (edgeValues (rectValue x y w h).vertices).length = 4 := by
        simp [edgeValues, rectValue]
      rw [hlen4] at h1
      simp only [mkRectangle, shapeInit_some_eq _ _ _ _ _ hb, exceptBind_ok]
      rw [if_neg (by simp [rectValue])]
      unfold registerEdges
      rw [h1, exceptBind_ok]
      rw [show n + 1 + 4 = n + 5 from by omega]
      rfl
    · exact List.mem_append.2 (.inl (List.mem_append.2 (.inr (List.mem_singleton.2 rfl))))
  · intro vs n rid ac l hvs hb
    have hlen : (edgeValues vs).length = vs.length := by simp [edgeValues]
    obtain ⟨lnew, h1, h2, h3, h4⟩ := foldShapeInit_some (edgeValues vs) n rid ac l hb
    rw [hlen] at h1
    refine ⟨lnew, ?_, h3⟩
    simp only [mkPolygon]
    rw [if_neg (by simpa using hvs)]
    unfold registerEdges
    rw [h1, exceptBind_ok]
    rfl

/-- C4 witness: a Point constructed in a fresh registry is registered under
the freshly incremented id 1. -/
theorem c4_witness :
    mkPoint 1 2 ⟨0, some ⟨0, []⟩, 1⟩
      = .ok (.point 1 2, ⟨1, some ⟨0, [(1, ShapeV.point 1 2)]⟩, 1⟩) :=
  c4_amended.1 1 2 0 0 1 [] (by simp)

/-- The only error a HemiPlane direct construction can raise is
DuplicateShape. -/
theorem mkHemiPlane_error_dup (p0 d : Vec2) (st : GState) (e : CErr)
    (he : mkHemiPlane p0 d st = .error e) : e = .duplicateShape := by
  cases hs : shapeInit (.hemiplane (hemiPlaneValue p0 d)) st with
  | error e0 =>
    simp only [mkHemiPlane, hs, exceptBind_error] at he
    have he0 : e0 = e := by simpa using he
    exact he0 ▸ shapeInit_error_dup _ _ _ hs
  | ok st1 =>
    simp only [mkHemiPlane, hs, exceptBind_ok] at he
    simp at he

/-- Effect of a Point construction with a live, duplicate-free registry. -/
theorem mkPoint_some_eq (x y : ℝ) (n rid ac : ℕ) (l : List (ℕ × ShapeV))
    (hb : ∀ e ∈ l, e.1 ≤ n) :
    mkPoint x y ⟨n, some ⟨rid, l⟩, ac⟩
      = .ok (.point x y, ⟨n + 1, some ⟨rid, l ++ [(n + 1, .point x y)]⟩, ac⟩) := by
  simp [mkPoint, shapeInit_some_eq _ _ _ _ _ hb]

/-- Effect of a HemiPlane construction with a live, duplicate-free
registry. -/
theorem mkHemiPlane_some_eq (p0 d : Vec2) (n rid ac : ℕ) (l : List (ℕ × ShapeV))
    (hb : ∀ e ∈ l, e.1 ≤ n) :
    mkHemiPlane p0 d ⟨n, some ⟨rid, l⟩, ac⟩
      = .ok (.hemiplane (hemiPlaneValue p0 d),
          ⟨n + 1, some ⟨rid, l ++ [(n + 1, .hemiplane (hemiPlaneValue p0 d))]⟩, ac⟩) := by
  simp [mkHemiPlane, shapeInit_some_eq _ _ _ _ _ hb]

/-- Effect of a Segment construction with a live, duplicate-free registry. -/
theorem mkSegment_some_eq (p0 d : Vec2) (len : ℝ) (cc : Bool) (n rid ac : ℕ)
    (l : List (ℕ × ShapeV)) (hb : ∀ e ∈ l, e.1 ≤ n) :
    mkSegment p0 d len cc ⟨n, some ⟨rid, l⟩, ac⟩
      = .ok (.segment ⟨p0, d, d.rotate (Real.pi / 2), len, cc, true⟩,
          ⟨n + 1, some ⟨rid,
            l ++ [(n + 1, .segment ⟨p0, d, d.rotate (Real.pi / 2), len, cc, true⟩)]⟩, ac⟩) := by
  simp [mkSegment, shapeInit_some_eq _ _ _ _ _ hb]

/-- C6 counterexample: a Polygon with only 3 vertices constructs
successfully (the code only rejects an empty vertex list), refuting the
claim that fewer than 4 vertices raises InvalidConstruction. -/
theorem c6_three_vertex_polygon_counterexample :
    (mkPolygon [⟨0, 0⟩, ⟨1, 0⟩, ⟨0, 1⟩] ⟨0, some ⟨0, []⟩, 1⟩).map
      (fun res => res.2.shapeId) = .ok 3 := rfl

/-- C6 amended: InvalidConstruction arises exactly for a degenerate
HemiPlane characteristic equation (`a = 0` and `b = 0`), for a Polygon with
an empty vertex list (not: fewer than 4), and for a room with
`n_edges < 4`; all other constructions of these kinds succeed (given a
duplicate-free registry). -/
theorem c6_amended :
    (∀ (a b c : ℝ) (st : GState),
      hemiPlaneFromCharacteristicEquation a b c st = .error .invalidConstruction
        ↔ (a = 0 ∧ b = 0)) ∧
    (∀ (vs : List Vec2) (st : GState),
      mkPolygon vs st = .error .invalidConstruction ↔ vs.length = 0) ∧
    (∀ (batches : ℕ → List Vec2) (fuel n : ℕ) (ms : ℝ) (center : Vec2),
      ordered_random_vertices batches fuel n ms center = .error .invalidConstruction
        ↔ n < 4) ∧
    (∀ (a b c : ℝ) (n rid ac : ℕ) (l : List (ℕ × ShapeV)), (∀ e ∈ l, e.1 ≤ n) →
      ¬(a = 0 ∧ b = 0) →
      ∃ res, hemiPlaneFromCharacteristicEquation a b c ⟨n, some ⟨rid, l⟩, ac⟩ = .ok res) ∧
    (∀ (vs : List Vec2) (n rid ac : ℕ) (l : List (ℕ × ShapeV)), vs.length ≠ 0 →
      (∀ e ∈ l, e.1 ≤ n) →
      ∃ res, mkPolygon vs ⟨n, some ⟨rid, l⟩, ac⟩ = .ok res) ∧
    (∀ (batches : ℕ → List Vec2) (fuel n : ℕ) (ms : ℝ) (center : Vec2), 4 ≤ n →
      ∃ res, ordered_random_vertices batches fuel n ms center = .ok res) := by
  refine ⟨?_, ?_, ?_, ?_, ?_, ?_⟩
  · intro a b c st
    constructor
    · intro he
      unfold hemiPlaneFromCharacteristicEquation at he
      by_cases hbne : b ≠ 0
      · rw [if_pos hbne] at he
        exact absurd (mkHemiPlane_error_dup _ _ _ _ he) (by decide)
      · rw [if_neg hbne] at he
        by_cases hane : a ≠ 0
        · rw [if_pos hane] at he
          exact absurd (mkHemiPlane_error_dup _ _ _ _ he) (by decide)
        · push_neg at hbne hane
          exact ⟨hane, hbne⟩
    · rintro ⟨ha, hb⟩
      subst ha
      subst hb
      simp [hemiPlaneFromCharacteristicEquation]
  · intro vs st
    constructor
    · intro he
      by_cases hv : vs.length = 0
      · exact hv
      · exfalso
        unfold mkPolygon registerEdges at he
        rw [if_neg hv] at he
        cases hf : (edgeValues vs).foldlM (fun acc sg => shapeInit (.segment sg) acc) st with
        | error e0 =>
          rw [hf, exceptBind_error] at he
          have h0 : e0 = .invalidConstruction := by simpa using he
          have hd := foldShapeInit_error_dup _ _ _ hf
          rw [h0] at hd
          exact absurd hd (by decide)
        | ok st1 =>
          rw [hf, exceptBind_ok] at he
          simp at he
    · intro hv
      simp [mkPolygon, hv]
  · intro batches fuel n ms center
    constructor
    · intro he
      by_cases hn : n < 4
      · exact hn
      · exfalso
        unfold ordered_random_vertices at he
        rw [if_neg hn] at he
        cases hf : findAccepted batches fuel 0 with
        | none => rw [hf] at he; simp at he
        | some pts => rw [hf] at he; simp at he
    · intro hn
      simp [ordered_random_vertices, hn]
  · intro a b c n rid ac l hb hne
    unfold hemiPlaneFromCharacteristicEquation
    by_cases hbne : b ≠ 0
    · rw [if_pos hbne]
      exact ⟨_, mkHemiPlane_some_eq _ _ _ _ _ _ hb⟩
    · rw [if_neg hbne]
      have hane : a ≠ 0 := by
        push_neg at hbne
        intro h0
        exact hne ⟨h0, hbne⟩
      rw [if_pos hane]
      exact ⟨_, mkHemiPlane_some_eq _ _ _ _ _ _ hb⟩
  · intro vs n rid ac l hv hb
    obtain ⟨lnew, h1, h2, h3, h4⟩ := foldShapeInit_some (edgeValues vs) n rid ac l hb
    refine ⟨(.polygon (polygonValue vs),
      ⟨n + (edgeValues vs).length, some ⟨rid, l ++ lnew⟩, ac⟩), ?_⟩
    simp only [mkPolygon]
    rw [if_neg hv]
    unfold registerEdges
    rw [h1, exceptBind_ok]
    rfl
  · intro batches fuel n ms center hn
    unfold ordered_random_vertices
    rw [if_neg (by omega)]
    cases hf : findAccepted batches fuel 0 with
    | none => exact ⟨_, rfl⟩
    | some pts => exact ⟨_, rfl⟩

/-- C6 witness: the HemiPlane for `y = 2` (equation `0x + 1y - 2 = 0`)
constructs successfully in a fresh registry. -/
theorem c6_witness :
    ∃ res, hemiPlaneFromCharacteristicEquation 0 1 (-2) ⟨0, some ⟨0, []⟩, 1⟩
      = .ok res :=
  c6_amended.2.2.2.1 0 1 (-2) 0 0 1 [] (by simp) (by norm_num)

/-- The angular sort is a permutation: it preserves membership. -/
theorem mem_sortByKey {p : Vec2} {pts : List Vec2} : p ∈ sortByKey pts ↔ p ∈ pts :=
  (List.mergeSort_perm pts _).mem_iff

/-- The angular sort preserves the number of points. -/
theorem length_sortByKey (pts : List Vec2) : (sortByKey pts).length = pts.length :=
  (List.mergeSort_perm pts _).length_eq

/-- A batch returned by the rejection loop was accepted and was drawn from
the oracle. -/
theorem findAccepted_sound (batches : ℕ → List Vec2) :
    ∀ (fuel k : ℕ) (pts : List Vec2), findAccepted batches fuel k = some pts →
      acceptBatch pts = true ∧ ∃ j, pts = batches j := by
  intro fuel
  induction fuel with
  | zero => intro k pts h; simp [findAccepted] at h
  | succ fuel ih =>
    intro k pts h
    unfold findAccepted at h
    by_cases ha : acceptBatch (batches k) = true
    · rw [if_pos ha] at h
      have hp : batches k = pts := by simpa using h
      exact ⟨by rw [← hp]; exact ha, k, hp.symm⟩
    · rw [if_neg ha] at h
      exact ih (k + 1) pts h

/-- An accepted batch has a strict-sign point in each quadrant. -/
theorem acceptBatch_spec (pts : List Vec2) (h : acceptBatch pts = true) :
    (∃ p ∈ pts, 0 < p.x ∧ 0 < p.y) ∧ (∃ p ∈ pts, p.x < 0 ∧ 0 < p.y) ∧
    (∃ p ∈ pts, p.x < 0 ∧ p.y < 0) ∧ (∃ p ∈ pts, 0 < p.x ∧ p.y < 0) := by
  simp only [acceptBatch, Bool.and_eq_true, List.any_eq_true,
    decide_eq_true_eq] at h
  exact ⟨h.1.1.1, h.1.1.2, h.1.2, h.2⟩

/-- C5 amended: whenever the generator terminates, it returns exactly `n`
vertices (hence a polygon with exactly `n` edges), and the vertex set covers
all four quadrants relative to the supplied center (the claim's
origin-relative coverage only holds when the center offset does not shift a
quadrant away, e.g. for center `(0,0)`). -/
theorem c5_amended (batches : ℕ → List Vec2) (fuel n : ℕ) (max_size : ℝ)
    (center : Vec2) (vs : List Vec2)
    (hlen : ∀ k, (batches k).length = n)
    (hres : ordered_random_vertices batches fuel n max_size center = .ok (some vs)) :
    vs.length = n ∧ (polygonValue vs).edges.length = n ∧
    (∃ v ∈ vs, center.x < v.x ∧ center.y < v.y) ∧
    (∃ v ∈ vs, v.x < center.x ∧ center.y < v.y) ∧
    (∃ v ∈ vs, v.x < center.x ∧ v.y < center.y) ∧
    (∃ v ∈ vs, center.x < v.x ∧ v.y < center.y) := by
  unfold ordered_random_vertices at hres
  by_cases hn4 : n < 4
  · rw [if_pos hn4] at hres
    simp at hres
  · rw [if_neg hn4] at hres
    cases hf : findAccepted batches fuel 0 with
    | none => rw [hf] at hres; simp at hres
    | some pts =>
      rw [hf] at hres
      have hvs : vs = (sortByKey pts).map (fun pt => pt + center) := by
        simpa using hres.symm
      obtain ⟨hacc, j, hj⟩ := findAccepted_sound batches fuel 0 pts hf
      have hlenvs : vs.length = n := by
        rw [hvs, List.length_map, length_sortByKey, hj, hlen j]
      refine ⟨hlenvs, by simp [polygonValue, edgeValues, hlenvs], ?_, ?_, ?_, ?_⟩
      all_goals {
        obtain ⟨hne, hnw, hsw, hse⟩ := acceptBatch_spec pts hacc
        first
        | (obtain ⟨p, hp, h1, h2⟩ := hne
           refine ⟨p + center, ?_, by simp; linarith, by simp; linarith⟩
           rw [hvs]
           exact List.mem_map_of_mem _ (mem_sortByKey.2 hp))
        | (obtain ⟨p, hp, h1, h2⟩ := hnw
           refine ⟨p + center, ?_, by simp; linarith, by simp; linarith⟩
           rw [hvs]
           exact List.mem_map_of_mem _ (mem_sortByKey.2 hp))
        | (obtain ⟨p, hp, h1, h2⟩ := hsw
           refine ⟨p + center, ?_, by simp; linarith, by simp; linarith⟩
           rw [hvs]
           exact List.mem_map_of_mem _ (mem_sortByKey.2 hp))
        | (obtain ⟨p, hp, h1, h2⟩ := hse
           refine ⟨p + center, ?_, by simp; linarith, by simp; linarith⟩
           rw [hvs]
           exact List.mem_map_of_mem _ (mem_sortByKey.2 hp))
      }

/-- The square batch covering all four quadrants is accepted. -/
theorem acceptBatch_square :
    acceptBatch [⟨1, 1⟩, ⟨-1, 1⟩, ⟨-1, -1⟩, ⟨1, -1⟩] = true := by
  simp only [acceptBatch, Bool.and_eq_true, List.any_eq_true, decide_eq_true_eq]
  refine ⟨⟨⟨⟨⟨1, 1⟩, ?_, ?_⟩, ⟨-1, 1⟩, ?_, ?_⟩, ⟨-1, -1⟩, ?_, ?_⟩, ⟨1, -1⟩, ?_, ?_⟩ <;>
    norm_num

/-- C5 counterexample: with center `(100, 100)` (and a max size of 10), the
generator terminates on the square batch, yet no returned vertex has a
negative x coordinate, refuting the claimed origin-relative coverage for
arbitrary centers. -/
theorem c5_counterexample :
    ordered_random_vertices (fun _ => [⟨1, 1⟩, ⟨-1, 1⟩, ⟨-1, -1⟩, ⟨1, -1⟩]) 1 4 10
        ⟨100, 100⟩
      = .ok (some ((sortByKey [⟨1, 1⟩, ⟨-1, 1⟩, ⟨-1, -1⟩, ⟨1, -1⟩]).map
          (fun pt => pt + ⟨100, 100⟩))) ∧
    ¬ ∃ v ∈ (sortByKey [⟨1, 1⟩, ⟨-1, 1⟩, ⟨-1, -1⟩, ⟨1, -1⟩]).map
          (fun pt => pt + (⟨100, 100⟩ : Vec2)), v.x < 0 := by
  constructor
  · unfold ordered_random_vertices findAccepted
    rw [if_neg (by norm_num), acceptBatch_square]
    rfl
  · rintro ⟨v, hv, hx⟩
    rw [List.mem_map] at hv
    obtain ⟨p, hp, rfl⟩ := hv
    rw [mem_sortByKey] at hp
    simp only [List.mem_cons, List.not_mem_nil, or_false] at hp
    rcases hp with h | h | h | h <;> subst h <;> simp at hx <;> norm_num at hx

/-- C5 witness: the same square batch with center `(0, 0)` yields 4
vertices, 4 edges, and full quadrant coverage. -/
theorem c5_witness :
    ((sortByKey [⟨1, 1⟩, ⟨-1, 1⟩, ⟨-1, -1⟩, ⟨1, -1⟩]).map
        (fun pt => pt + (⟨0, 0⟩ : Vec2))).length = 4 ∧
    (polygonValue ((sortByKey [⟨1, 1⟩, ⟨-1, 1⟩, ⟨-1, -1⟩, ⟨1, -1⟩]).map
        (fun pt => pt + (⟨0, 0⟩ : Vec2)))).edges.length = 4 ∧
    (∃ v ∈ (sortByKey [⟨1, 1⟩, ⟨-1, 1⟩, ⟨-1, -1⟩, ⟨1, -1⟩]).map
        (fun pt => pt + (⟨0, 0⟩ : Vec2)),
      (⟨0, 0⟩ : Vec2).x < v.x ∧ (⟨0, 0⟩ : Vec2).y < v.y) ∧
    (∃ v ∈ (sortByKey [⟨1, 1⟩, ⟨-1, 1⟩, ⟨-1, -1⟩, ⟨1, -1⟩]).map
        (fun pt => pt + (⟨0, 0⟩ : Vec2)),
      v.x < (⟨0, 0⟩ : Vec2).x ∧ (⟨0, 0⟩ : Vec2).y < v.y) ∧
    (∃ v ∈ (sortByKey [⟨1, 1⟩, ⟨-1, 1⟩, ⟨-1, -1⟩, ⟨1, -1⟩]).map
        (fun pt => pt + (⟨0, 0⟩ : Vec2)),
      v.x < (⟨0, 0⟩ : Vec2).x ∧ v.y < (⟨0, 0⟩ : Vec2).y) ∧
    (∃ v ∈ (sortByKey [⟨1, 1⟩, ⟨-1, 1⟩, ⟨-1, -1⟩, ⟨1, -1⟩]).map
        (fun pt => pt + (⟨0, 0⟩ : Vec2)),
      (⟨0, 0⟩ : Vec2).x < v.x ∧ v.y < (⟨0, 0⟩ : Vec2).y) :=
  c5_amended (fun _ => [⟨1, 1⟩, ⟨-1, 1⟩, ⟨-1, -1⟩, ⟨1, -1⟩]) 1 4 10 ⟨0, 0⟩
    ((sortByKey [⟨1, 1⟩, ⟨-1, 1⟩, ⟨-1, -1⟩, ⟨1, -1⟩]).map
        (fun pt => pt + (⟨0, 0⟩ : Vec2)))
    (fun _ => rfl)
    (by
      unfold ordered_random_vertices findAccepted
      rw [if_neg (by norm_num), acceptBatch_square]
      rfl)

end Beetle
